import Mathlib

/-!
Verification of the market-data-simulation core (regime-switching jump-diffusion
simulator with coupled open-interest engine).

The development shallowly embeds the relevant source functions:

* `src/market_sim/models/gbm_jd_model.py` — `_get_next_expiry`,
  `_get_adjusted_sigma`, `_black_scholes_price`, the strike-grid construction
  and the per-step OHLC bar construction of `_simulate_market`;
* `src/market_sim/models/options.py` — `BlackScholesModel._validate_parameters`;
* `src/market_sim/api/schemas.py` — `MarkovJumpSimulationRequest.check_matrix_and_regimes`;
* `src/market_sim/api/simulate_pcr.py` — `initialize_option_chain_oi`,
  `add_new_daily_oi`, `calculate_time_based_reallocation_rate` and the
  per-timestamp reallocation body of `simulate_oi_movement`.

Conventions.  Python/NumPy floats are modelled as rationals; `int(x)` /
`.astype(int)` (truncation toward zero) is `pyInt`; `np.round` (round half to
even) is `npRound`.  Random draws (normal variates, jump multipliers) and the
floating-point transcendentals (`exp`, `log`, `norm.cdf`, `sqrt`) appear as
explicit parameters of the embedded functions, so every theorem quantifies
over them.  Open interest is carried as `ℤ` (pandas int64).
-/

/-- Python `int(x)` / NumPy `.astype(int)`: truncation toward zero. -/
def pyInt (q : ℚ) : ℤ := if q < 0 then ⌈q⌉ else ⌊q⌋

/-- NumPy `np.round` at 0 decimals: round half to even. -/
def npRound (x : ℚ) : ℤ :=
  if x - ⌊x⌋ < 1/2 then ⌊x⌋
  else if 1/2 < x - ⌊x⌋ then ⌊x⌋ + 1
  else if ⌊x⌋ % 2 = 0 then ⌊x⌋ else ⌊x⌋ + 1

/-- NumPy `np.round(x, decimals=3)`. -/
def npRound3 (x : ℚ) : ℚ := (npRound (x * 1000) : ℚ) / 1000

/-- Embeds `GBM_JD_Model._get_adjusted_sigma` (gbm_jd_model.py lines 22-30).
`previous_sma` is the trailing EMA; while it is still NaN every comparison
with it is False so the `v_small` branch is taken, which we model by `none`.
`v_small` stands for the `np.random.normal(0, 1)` draw and `v_large` for the
`np.random.normal(0, 3)` draw; the weight `w = 0.01`. -/
def get_adjusted_sigma (base_sigma previous_close : ℚ) (previous_sma : Option ℚ)
    (v_small v_large : ℚ) : ℚ :=
  match previous_sma with
  | some sma =>
      if |previous_close - sma| / previous_close < 1/1000 then
        base_sigma * (1 + (1/100) * v_large)
      else
        base_sigma * (1 + (1/100) * v_small)
  | none => base_sigma * (1 + (1/100) * v_small)

/-- Embeds `GBM_JD_Model._get_next_expiry` (gbm_jd_model.py lines 14-20).
Dates are modelled by their ordinal day number with the epoch chosen on a
Monday, so `day % 7` is exactly Python's `dt.weekday()` (Monday = 0,
Thursday = 3). -/
def get_next_expiry (day : ℤ) : ℤ :=
  let days_ahead := (3 - day % 7) % 7
  if days_ahead = 0 then day + 7 else day + days_ahead

/-- Embeds the strike-grid construction of `GBM_JD_Model._simulate_market`
(gbm_jd_model.py lines 195-199):
`center = int(np.round(close / 50) * 50)`, `offsets = np.arange(-25, 25) * 50`,
`strikes = np.sort(center + offsets)` (already ascending here). -/
def strike_grid (S : ℚ) : List ℤ :=
  (List.range 50).map (fun i : ℕ => npRound (S / 50) * 50 + ((i : ℤ) - 25) * 50)

/-- Embeds `GBM_JD_Model._black_scholes_price` (gbm_jd_model.py lines 32-40).
The floating-point transcendentals `np.log`, `norm.cdf`, `np.sqrt`, `np.exp`
are abstract parameters.  The source performs no input validation and raises
nothing (NumPy turns domain errors into NaN values, not exceptions), so the
embedding returns `Except.ok` on every input; the `Except` codomain makes the
absence of an error signal expressible. -/
def gbm_black_scholes_price (log cdf sqrtq expq : ℚ → ℚ)
    (S K T r sigma : ℚ) (isCall : Bool) : Except String ℚ :=
  let d1 := (log (S / K) + (r + sigma ^ 2 / 2) * T) / (sigma * sqrtq T)
  let d2 := d1 - sigma * sqrtq T
  let price :=
    if isCall then S * cdf d1 - K * expq (-(r * T)) * cdf d2
    else K * expq (-(r * T)) * cdf (-d2) - S * cdf (-d1)
  Except.ok (npRound3 price)

/-- Embeds `BlackScholesModel._validate_parameters` (options.py lines 25-34):
raises `ValueError` on the first non-positive parameter, in source order. -/
def validate_parameters (S K T sigma : ℚ) : Except String Unit :=
  if S ≤ 0 then Except.error "Spot price must be positive"
  else if K ≤ 0 then Except.error "Strike price must be positive"
  else if T ≤ 0 then Except.error "Time to expiry must be positive"
  else if sigma ≤ 0 then Except.error "Volatility must be positive"
  else Except.ok ()

/-- One OHLC bar of the index series. -/
structure Bar where
  op : ℚ
  hi : ℚ
  lo : ℚ
  cl : ℚ

/-- The intra-day price list of `_simulate_market` (gbm_jd_model.py lines
163-173): `intra_prices = [open]` followed by `current_price *= mult` for each
micro-step, where each `mult` stands for `exp(drift + vol)`. -/
def intra_prices (p : ℚ) : List ℚ → List ℚ
  | [] => [p]
  | m :: ms => p :: intra_prices (p * m) ms

/-- Embeds the bar construction of one iteration of the main loop of
`_simulate_market` (gbm_jd_model.py lines 160-188).  `mults` are the
micro-step multipliers `exp(drift + vol)`; `jump = some j` models the branch
where the uniform draw falls below `lambda_jump * dt`, with `j` the jump
multiplier `exp(normal(mu_jump, sigma_jump))`. -/
def simulate_bar (prevClose : ℚ) (mults : List ℚ) (jump : Option ℚ) : Bar :=
  let bopen := prevClose
  let ip := intra_prices bopen mults
  let preJumpClose := mults.foldl (fun p m => p * m) bopen
  let bclose := match jump with
    | some j => preJumpClose * j
    | none => preJumpClose
  let dayHigh := ip.foldl max bopen
  let dayLow := ip.foldl min bopen
  { op := bopen, hi := max dayHigh bclose, lo := min dayLow bclose, cl := bclose }

/-- Embeds `MarkovJumpSimulationRequest.check_matrix_and_regimes`
(schemas.py lines 138-150): reject a non-square matrix, then any row whose sum
is farther than 1e-6 from 1, then a regime count different from the matrix
dimension; otherwise accept. -/
def check_matrix_and_regimes (matrix : List (List ℚ)) (numRegimes : ℕ) :
    Except String Unit :=
  if matrix.any (fun row => decide (row.length ≠ matrix.length)) then
    Except.error "transition_matrix must be square (n x n)"
  else if matrix.any (fun row => decide ((1 : ℚ)/1000000 < |row.sum - 1|)) then
    Except.error "Row must sum to 1"
  else if numRegimes ≠ matrix.length then
    Except.error "Number of regimes must equal matrix dimension"
  else Except.ok ()

/-! ## Open-interest engine (`simulate_pcr.py`) -/

/-- Call/put side of an option record (`StrikeType` column). -/
inductive Side where
  | CE : Side
  | PE : Side
deriving DecidableEq

/-- One option row as seen by the open-interest engine: strike (integer grid
point), side and current open interest (pandas int64). -/
structure ORec where
  strike : ℤ
  side : Side
  oi : ℤ
deriving DecidableEq

/-- Total open interest of a list of rows (a pandas `['OI'].sum()`). -/
def oiSum (l : List ORec) : ℤ := (l.map ORec.oi).sum

/-- Embeds `calculate_time_based_reallocation_rate`
(simulate_pcr.py lines 145-161). -/
def reallocation_rate (days_to_expiry : ℤ) : ℚ :=
  if days_to_expiry ≤ 0 then 1/2
  else if days_to_expiry ≤ 1 then 3/10
  else if days_to_expiry ≤ 6 then 3/10 - ((days_to_expiry : ℚ) - 1) * ((1/5) / 5)
  else 1/10

/-- ITM calls of a cohort at the current spot: `Strike <= spot`
(simulate_pcr.py line 246). -/
def ceITM (spot : ℚ) (recs : List ORec) : List ORec :=
  recs.filter (fun r => decide (r.side = Side.CE) && decide ((r.strike : ℚ) ≤ spot))

/-- OTM calls: `Strike > spot` (simulate_pcr.py line 247). -/
def ceOTM (spot : ℚ) (recs : List ORec) : List ORec :=
  recs.filter (fun r => decide (r.side = Side.CE) && decide (spot < (r.strike : ℚ)))

/-- ITM puts: `Strike >= spot` (simulate_pcr.py line 251). -/
def peITM (spot : ℚ) (recs : List ORec) : List ORec :=
  recs.filter (fun r => decide (r.side = Side.PE) && decide (spot ≤ (r.strike : ℚ)))

/-- OTM puts: `Strike < spot` (simulate_pcr.py line 252). -/
def peOTM (spot : ℚ) (recs : List ORec) : List ORec :=
  recs.filter (fun r => decide (r.side = Side.PE) && decide ((r.strike : ℚ) < spot))

/-- Raw OTM weight for calls, `1 / (1 + 0.01 * (Strike - spot))`
(simulate_pcr.py line 262). -/
def ceWeight (spot : ℚ) (r : ORec) : ℚ := 1 / (1 + (1/100) * ((r.strike : ℚ) - spot))

/-- Raw OTM weight for puts, `1 / (1 + 0.01 * (spot - Strike))`
(simulate_pcr.py line 284). -/
def peWeight (spot : ℚ) (r : ORec) : ℚ := 1 / (1 + (1/100) * (spot - (r.strike : ℚ)))

/-- The active body of one Phase-3 reallocation for one side
(simulate_pcr.py lines 257-275 resp. 279-297), reached when the side has
non-empty ITM and OTM sets and `oi_to_move > 0`:
`oi_to_move = int(total_itm_oi * rate)`; the normalized weight of an OTM row
is its raw weight divided by the raw-weight sum; each OTM row gains
`int(oi_to_move * weight)` (the zip of `(oi_to_move * weights).astype(int)`
with the rows it was computed from); each ITM row shrinks to
`max(25, int(oi * (1 - oi_to_move / total_itm_oi)))`. -/
def reallocActive (rate : ℚ) (wfun : ORec → ℚ) (itm otm : List ORec) :
    List ORec × List ORec :=
  (itm.map (fun r => { r with oi := max 25 (pyInt ((r.oi : ℚ) *
      (1 - (pyInt ((oiSum itm : ℚ) * rate) : ℚ) / (oiSum itm : ℚ)))) }),
   otm.map (fun r => { r with oi := r.oi + pyInt ((pyInt ((oiSum itm : ℚ) * rate) : ℚ) *
      (wfun r / (otm.map wfun).sum)) }))

/-- One Phase-3 reallocation event on the call side of one expiry cohort
(simulate_pcr.py lines 244-275).  Returns the updated (ITM, OTM) call rows;
rows are returned unchanged when either set is empty or no OI moves. -/
def reallocCE (rate spot : ℚ) (recs : List ORec) : List ORec × List ORec :=
  if ceITM spot recs = [] ∨ ceOTM spot recs = [] ∨
     pyInt ((oiSum (ceITM spot recs) : ℚ) * rate) ≤ 0 then
    (ceITM spot recs, ceOTM spot recs)
  else reallocActive rate (ceWeight spot) (ceITM spot recs) (ceOTM spot recs)

/-- One Phase-3 reallocation event on the put side of one expiry cohort
(simulate_pcr.py lines 249-252 and 277-297). -/
def reallocPE (rate spot : ℚ) (recs : List ORec) : List ORec × List ORec :=
  if peITM spot recs = [] ∨ peOTM spot recs = [] ∨
     pyInt ((oiSum (peITM spot recs) : ℚ) * rate) ≤ 0 then
    (peITM spot recs, peOTM spot recs)
  else reallocActive rate (peWeight spot) (peITM spot recs) (peOTM spot recs)

/-- Phase-2 distribution weights, nearest-to-farthest (simulate_pcr.py line 73). -/
def p2Weights : List ℚ := [1/2, 1/5, 3/20, 1/10, 1/20]

/-- Stable insertion of `x` into `l` keeping elements `y` with `lt x y = false`
in front; used to model the `sort_values` calls. -/
def insertBy (lt : α → α → Bool) (x : α) : List α → List α
  | [] => [x]
  | y :: ys => if lt x y then x :: y :: ys else y :: insertBy lt x ys

/-- Comparison sort by insertion (models pandas `sort_values` on a key). -/
def sortBy (lt : α → α → Bool) : List α → List α
  | [] => []
  | x :: xs => insertBy lt x (sortBy lt xs)

/-- Sum of the additions recorded for row position `i` (models the
`options.loc[idx, 'OI'] += oi_addition` updates addressed by row label). -/
def lookupAdd (adds : List (ℕ × ℤ)) (i : ℕ) : ℤ :=
  ((adds.filter (fun p => decide (p.1 = i))).map Prod.snd).sum

/-- Embeds `add_new_daily_oi` for one (trading day, expiry) cohort
(simulate_pcr.py lines 30-91).  `recs` are the cohort's rows in dataframe
order, addressed positionally (the dataframe row label), hence the `enum`.
`new_oi_total = int(total * 0.2)`; eligible call-target rows lie at least
`distance` above spot (`distance = 150` when `days_to_expiry <= 3`, else 200),
eligible put-target rows at least `distance` below; strikes with
`strike % 100 == 50` are eligible only when `days_to_expiry <= 3`.  The first
5 eligible rows by strike (ascending for calls, descending for puts) receive
`int(side_total * weight)` with weights `p2Weights` in that order; nothing is
added unless both target sets are non-empty.  `ce_oi_to_add =
int(new_oi_total / 2)` and `pe_oi_to_add = new_oi_total - ce_oi_to_add`.
The embedding is split into the helper functions below; `add_new_daily_oi`
assembles them.  `p2NewTotal` is `new_oi_total = int(total * 0.2)`
(simulate_pcr.py lines 31-34). -/
def p2NewTotal (recs : List ORec) : ℤ := pyInt ((oiSum recs : ℚ) * (1/5))

/-- Phase-2 call-target rows (simulate_pcr.py lines 36-68): the first five
eligible `(row label, row)` pairs by ascending strike. -/
def p2CeTargets (spot : ℚ) (days_to_expiry : ℤ) (recs : List ORec) :
    List (ℕ × ORec) :=
  (sortBy (fun p q : ℕ × ORec => decide (p.2.strike < q.2.strike))
    (recs.enum.filter (fun p =>
      decide (p.2.side = Side.CE) &&
      decide (spot + (if days_to_expiry ≤ 3 then (150 : ℚ) else 200) ≤ (p.2.strike : ℚ)) &&
      (decide (days_to_expiry ≤ 3) || decide (p.2.strike % 100 ≠ 50))))).take 5

/-- Phase-2 put-target rows (simulate_pcr.py lines 52-69): the first five
eligible `(row label, row)` pairs by descending strike. -/
def p2PeTargets (spot : ℚ) (days_to_expiry : ℤ) (recs : List ORec) :
    List (ℕ × ORec) :=
  (sortBy (fun p q : ℕ × ORec => decide (q.2.strike < p.2.strike))
    (recs.enum.filter (fun p =>
      decide (p.2.side = Side.PE) &&
      decide ((p.2.strike : ℚ) ≤ spot - (if days_to_expiry ≤ 3 then (150 : ℚ) else 200)) &&
      (decide (days_to_expiry ≤ 3) || decide (p.2.strike % 100 ≠ 50))))).take 5

/-- Additions of one side of Phase 2 (simulate_pcr.py lines 79-89): the i-th
target row gains `int(side_total * weights[i])`; the zip truncates at the
shorter list exactly as `head(5)` together with `i < len(weights)` does. -/
def p2Adds (amt : ℤ) (targets : List (ℕ × ORec)) : List (ℕ × ℤ) :=
  (targets.zip p2Weights).map (fun p => (p.1.1, pyInt ((amt : ℚ) * p.2)))

def add_new_daily_oi (spot : ℚ) (days_to_expiry : ℤ) (recs : List ORec) :
    List ORec :=
  if p2CeTargets spot days_to_expiry recs = [] ∨
     p2PeTargets spot days_to_expiry recs = [] then recs
  else
    recs.enum.map (fun p =>
      { p.2 with oi := p.2.oi
          + lookupAdd (p2Adds (pyInt ((p2NewTotal recs : ℚ) / 2))
              (p2CeTargets spot days_to_expiry recs)) p.1
          + lookupAdd (p2Adds (p2NewTotal recs - pyInt ((p2NewTotal recs : ℚ) / 2))
              (p2PeTargets spot days_to_expiry recs)) p.1 })

/-- The per-strike seed of Phase 1 (simulate_pcr.py lines 123-135):
`int(gauss * total_oi * 0.4)`, where `gauss` is the value
`np.exp(-0.5 * ((strike - center) / 100) ** 2)` of the Gaussian bump at the
row's strike.  The transcendental bump values are abstract inputs `gs`
(one per row, each lying in `[0, 1]` in the source). -/
def init_gauss_oi (target : ℚ) (gs : List ℚ) : List ℤ :=
  gs.map (fun g => pyInt (g * target * (2/5)))

/-- The global rescale of Phase 1 (simulate_pcr.py lines 137-141): when the
cohort's current total is positive, every row is scaled by
`total_oi / current_total` and truncated to an integer (`astype(int)`). -/
def rescale_oi (target : ℚ) (ois : List ℤ) : List ℤ :=
  if 0 < ois.sum then ois.map (fun o : ℤ => pyInt ((o : ℚ) * (target / (ois.sum : ℚ))))
  else ois

/-- Embeds `initialize_option_chain_oi` for one expiry cohort
(simulate_pcr.py lines 93-143, source name `initialize_option_chain_oi`).
`ceG` and `peG` are the Gaussian-bump values of the cohort's call rows
(centered at spot + 150) and put rows (centered at spot - 150); a cohort with
an empty call or put set is skipped and keeps the zeros written when the `OI`
column was created. -/
def init_option_chain_oi (target : ℚ) (ceG peG : List ℚ) : List ℤ :=
  if ceG = [] ∨ peG = [] then (ceG ++ peG).map (fun _ => 0)
  else rescale_oi target (init_gauss_oi target ceG ++ init_gauss_oi target peG)

/-! ## Helper lemmas -/

theorem pyInt_eq_floor {q : ℚ} (h : 0 ≤ q) : pyInt q = ⌊q⌋ := by
  unfold pyInt
  rw [if_neg (not_lt.mpr h)]

theorem pyInt_nonneg {q : ℚ} (h : 0 ≤ q) : 0 ≤ pyInt q := by
  rw [pyInt_eq_floor h]
  exact Int.floor_nonneg.mpr h

theorem pyInt_cast_le {q : ℚ} (h : 0 ≤ q) : (pyInt q : ℚ) ≤ q := by
  rw [pyInt_eq_floor h]
  exact Int.floor_le q

theorem sub_one_le_pyInt {q : ℚ} (h : 0 ≤ q) : q - 1 ≤ (pyInt q : ℚ) := by
  rw [pyInt_eq_floor h]
  exact le_of_lt (Int.sub_one_lt_floor q)

theorem pos_of_pyInt_pos {q : ℚ} (h : 0 < pyInt q) : 0 < q := by
  by_contra hc
  push_neg at hc
  have hle : pyInt q ≤ 0 := by
    unfold pyInt
    split_ifs with hlt
    · exact le_trans (Int.ceil_le_ceil hc) (by norm_num)
    · exact le_trans (Int.floor_le_floor hc) (by norm_num)
  omega

theorem le_foldl_max (l : List ℚ) : ∀ b : ℚ, b ≤ l.foldl max b := by
  induction l with
  | nil => intro b; exact le_refl b
  | cons x xs ih => intro b; exact le_trans (le_max_left b x) (ih (max b x))

theorem foldl_min_le (l : List ℚ) : ∀ b : ℚ, l.foldl min b ≤ b := by
  induction l with
  | nil => intro b; exact le_refl b
  | cons x xs ih => intro b; exact le_trans (ih (min b x)) (min_le_left b x)

/-! ## C1: adjusted-volatility rule -/

/-- C1 counterexample: with the previous close exactly on the EMA (within
0.1%), a zero tight-normal draw and a unit wide-normal draw, the adjusted
sigma is not `base_sigma * (1 + 0.01 * v_small)`: the code scales by the
wide draw in this branch, not the tight one as the claim states. -/
theorem C1_counterexample :
    get_adjusted_sigma 1 1000 (some 1000) 0 1 ≠ 1 * (1 + (1/100) * 0) := by
  have h : get_adjusted_sigma 1 1000 (some 1000) 0 1 = 1 * (1 + (1/100) * 1) := by
    simp only [get_adjusted_sigma]
    rw [if_pos (by norm_num)]
  rw [h]
  norm_num

/-- C1 (amended): when the trailing EMA is defined and the previous close is
within 0.1% of it, base sigma is scaled by the WIDE-normal draw `v_large`
(`np.random.normal(0, 3)`); otherwise — and also while the EMA is undefined —
it is scaled by the tight-normal draw `v_small` (`np.random.normal(0, 1)`);
the perturbation weight is 0.01 in both cases. -/
theorem C1_amended (base pc sma v_small v_large : ℚ) :
    (|pc - sma| / pc < 1/1000 →
      get_adjusted_sigma base pc (some sma) v_small v_large
        = base + base * (v_large * (1/100))) ∧
    (1/1000 ≤ |pc - sma| / pc →
      get_adjusted_sigma base pc (some sma) v_small v_large
        = base + base * (v_small * (1/100))) ∧
    get_adjusted_sigma base pc none v_small v_large
      = base + base * (v_small * (1/100)) := by
  refine ⟨fun h => ?_, fun h => ?_, ?_⟩ <;> simp only [get_adjusted_sigma]
  · rw [if_pos h]; ring
  · rw [if_neg (not_lt.mpr h)]; ring
  · ring

/-- C1 witness: a concrete in-band step where the wide draw is applied. -/
theorem C1_witness :
    (|(1000 : ℚ) - 1000| / 1000 < 1/1000) ∧
    get_adjusted_sigma 1 1000 (some 1000) 2 5 = 1 + 1 * (5 * (1/100)) :=
  ⟨by norm_num, (C1_amended 1 1000 1000 2 5).1 (by norm_num)⟩

/-! ## C2: strike grid -/

theorem mem_strike_grid (S : ℚ) (x : ℤ) :
    x ∈ strike_grid S ↔
      ∃ j : ℤ, -25 ≤ j ∧ j < 25 ∧ x = npRound (S / 50) * 50 + j * 50 := by
  unfold strike_grid
  rw [List.mem_map]
  constructor
  · rintro ⟨i, hi, rfl⟩
    rw [List.mem_range] at hi
    exact ⟨(i : ℤ) - 25, by omega, by omega, by ring⟩
  · rintro ⟨j, h1, h2, rfl⟩
    refine ⟨(j + 25).toNat, ?_, ?_⟩
    · rw [List.mem_range]; omega
    · have h : ((j + 25).toNat : ℤ) = j + 25 := by omega
      rw [h]; ring

/-- C2 counterexample: at spot 24000 the grid contains the strike
`center - 1250` but not `center + 1250`, so the grid is not symmetric around
the rounded spot. -/
theorem C2_counterexample :
    npRound ((24000 : ℚ) / 50) * 50 + (-1250) ∈ strike_grid 24000 ∧
    npRound ((24000 : ℚ) / 50) * 50 - (-1250) ∉ strike_grid 24000 := by
  constructor
  · exact (mem_strike_grid 24000 _).mpr ⟨-25, by norm_num, by norm_num, by ring⟩
  · intro hmem
    rw [mem_strike_grid] at hmem
    obtain ⟨j, h1, h2, hj⟩ := hmem
    omega

/-- C2 (amended): the strike grid has exactly the configured 50 strikes, its
members are precisely `center + j * 50` for `-25 ≤ j < 25` (50-point spacing,
25 strikes below the rounded spot, the center, and 24 above), and it is
symmetric around `center = round(S/50) * 50` except at its minimum element:
for every grid strike `center + k` with `k ≠ -1250`, `center - k` is also in
the grid. -/
theorem C2_amended (S : ℚ) :
    (strike_grid S).length = 50 ∧
    (∀ x : ℤ, x ∈ strike_grid S ↔
      ∃ j : ℤ, -25 ≤ j ∧ j < 25 ∧ x = npRound (S / 50) * 50 + j * 50) ∧
    (∀ k : ℤ, npRound (S / 50) * 50 + k ∈ strike_grid S → k ≠ -1250 →
      npRound (S / 50) * 50 - k ∈ strike_grid S) := by
  refine ⟨by simp [strike_grid], mem_strike_grid S, ?_⟩
  intro k hk hkne
  rw [mem_strike_grid] at hk ⊢
  obtain ⟨j, h1, h2, hj⟩ := hk
  have hkj : k = j * 50 := by omega
  exact ⟨-j, by omega, by omega, by omega⟩

/-- C2 witness: a mirrored pair inside the symmetric part of the grid. -/
theorem C2_witness :
    npRound ((24012 : ℚ) / 50) * 50 + 1200 ∈ strike_grid 24012 ∧
    npRound ((24012 : ℚ) / 50) * 50 - 1200 ∈ strike_grid 24012 :=
  have hmem : npRound ((24012 : ℚ) / 50) * 50 + 1200 ∈ strike_grid 24012 :=
    (mem_strike_grid 24012 _).mpr ⟨24, by norm_num, by norm_num, by ring⟩
  ⟨hmem, (C2_amended 24012).2.2 1200 hmem (by norm_num)⟩

/-! ## C5: pricing-call validation -/

/-- C5 counterexample: a pricing call of the per-step pricer
(`GBM_JD_Model._black_scholes_price`) with non-positive time-to-expiry is not
rejected — the function performs no validation and returns a value (with
NumPy producing NaN rather than raising), contradicting the claim that every
such call fails with an explicit error signal. -/
theorem C5_counterexample :
    ((-1 : ℚ) ≤ 0) ∧
    (gbm_black_scholes_price id id id id 100 100 (-1) (13/200) (1/5) true).isOk
      = true :=
  ⟨by norm_num, rfl⟩

/-- C5 (amended): the standalone `BlackScholesModel` (options.py) accepts a
pricing call exactly when all of spot, strike, time-to-expiry and volatility
are strictly positive, rejecting any other call with an explicit error; the
per-step pricer `GBM_JD_Model._black_scholes_price`, however, performs no
input validation and returns a value for every input (silently producing NaN
in floating point on bad domains). -/
theorem C5_amended :
    (∀ S K T sigma : ℚ,
      validate_parameters S K T sigma = Except.ok ()
        ↔ (0 < S ∧ 0 < K ∧ 0 < T ∧ 0 < sigma)) ∧
    (∀ (log cdf sqrtq expq : ℚ → ℚ) (S K T r sigma : ℚ) (isCall : Bool),
      (gbm_black_scholes_price log cdf sqrtq expq S K T r sigma isCall).isOk
        = true) := by
  constructor
  · intro S K T sigma
    unfold validate_parameters
    split_ifs with h1 h2 h3 h4
    · exact iff_of_false (by simp) (fun h => absurd h.1 (not_lt.mpr h1))
    · exact iff_of_false (by simp) (fun h => absurd h.2.1 (not_lt.mpr h2))
    · exact iff_of_false (by simp) (fun h => absurd h.2.2.1 (not_lt.mpr h3))
    · exact iff_of_false (by simp) (fun h => absurd h.2.2.2 (not_lt.mpr h4))
    · exact iff_of_true rfl ⟨not_le.mp h1, not_le.mp h2, not_le.mp h3, not_le.mp h4⟩
  · intro log cdf sqrtq expq S K T r sigma isCall
    rfl

/-- C5 witness: a strictly positive pricing call is accepted by the validator. -/
theorem C5_witness : validate_parameters 100 100 (1/2) (1/5) = Except.ok () :=
  (C5_amended.1 100 100 (1/2) (1/5)).mpr (by norm_num)

/-! ## C8: weekly-expiry resolution -/

/-- C8: the resolved expiry is always a Thursday (weekday 3) strictly after
the given day, at most seven days ahead, it is the nearest such day (no
intermediate day is the expiry weekday), and a timestamp already on the
expiry weekday resolves to seven days later — never same-day. -/
theorem C8_next_expiry (day : ℤ) :
    get_next_expiry day % 7 = 3 ∧
    day < get_next_expiry day ∧
    get_next_expiry day ≤ day + 7 ∧
    (day % 7 = 3 → get_next_expiry day = day + 7) ∧
    (∀ e : ℤ, day < e → e < get_next_expiry day → e % 7 ≠ 3) := by
  simp only [get_next_expiry]
  split_ifs with h
  · refine ⟨by omega, by omega, by omega, fun _ => rfl, fun e h1 h2 => by omega⟩
  · refine ⟨by omega, by omega, by omega, fun hc => by omega, fun e h1 h2 => by omega⟩

/-- C8 witness: day 3 (a Thursday) resolves to day 10, seven days later, and
day 5 in between is not an expiry day. -/
theorem C8_witness :
    ((3 : ℤ) % 7 = 3 ∧ get_next_expiry 3 = 3 + 7) ∧ (5 : ℤ) % 7 ≠ 3 :=
  ⟨⟨by decide, (C8_next_expiry 3).2.2.2.1 (by decide)⟩,
   (C8_next_expiry 3).2.2.2.2 5 (by decide) (by decide)⟩

/-! ## C9: transition-matrix validation -/

/-- C9: the request validator accepts a configuration exactly when the
transition matrix is square, every row sums to 1 within 1e-6, and the regime
count equals the matrix dimension; any violation is rejected with an error
(pydantic raises at construction time, before any simulation step runs). -/
theorem C9_validator (matrix : List (List ℚ)) (numRegimes : ℕ) :
    check_matrix_and_regimes matrix numRegimes = Except.ok () ↔
      ((∀ row ∈ matrix, row.length = matrix.length) ∧
       (∀ row ∈ matrix, |row.sum - 1| ≤ 1/1000000) ∧
       numRegimes = matrix.length) := by
  unfold check_matrix_and_regimes
  split_ifs with h1 h2 h3
  · refine iff_of_false (by simp) ?_
    rw [List.any_eq_true] at h1
    obtain ⟨row, hrow, hne⟩ := h1
    simp only [decide_eq_true_eq] at hne
    exact fun h => hne (h.1 row hrow)
  · refine iff_of_false (by simp) ?_
    rw [List.any_eq_true] at h2
    obtain ⟨row, hrow, hlt⟩ := h2
    simp only [decide_eq_true_eq] at hlt
    exact fun h => absurd (h.2.1 row hrow) (not_le.mpr hlt)
  · exact iff_of_false (by simp) (fun h => h3 h.2.2)
  · refine iff_of_true rfl ⟨fun row hrow => ?_, fun row hrow => ?_, not_ne_iff.mp h3⟩
    · by_contra hc
      exact h1 (List.any_eq_true.mpr ⟨row, hrow, decide_eq_true hc⟩)
    · by_contra hc
      exact h2 (List.any_eq_true.mpr ⟨row, hrow, decide_eq_true (lt_of_not_le hc)⟩)

/-- C9 witness: the identity 1x1 matrix with one regime is accepted. -/
theorem C9_witness : check_matrix_and_regimes [[1]] 1 = Except.ok () :=
  (C9_validator [[1]] 1).mpr
    ⟨by intro row hrow; simp only [List.mem_singleton] at hrow; subst hrow; rfl,
     by intro row hrow; simp only [List.mem_singleton] at hrow; subst hrow; norm_num,
     rfl⟩

/-! ## C10: OHLC bar consistency -/

/-- C10: for every simulated bar, low ≤ open ≤ high and low ≤ close ≤ high
(the sub-path extremes are extended by the post-jump close), and the bar's
open equals the previous close. -/
theorem C10_bar (prevClose : ℚ) (mults : List ℚ) (jump : Option ℚ) :
    (simulate_bar prevClose mults jump).lo ≤ (simulate_bar prevClose mults jump).op ∧
    (simulate_bar prevClose mults jump).op ≤ (simulate_bar prevClose mults jump).hi ∧
    (simulate_bar prevClose mults jump).lo ≤ (simulate_bar prevClose mults jump).cl ∧
    (simulate_bar prevClose mults jump).cl ≤ (simulate_bar prevClose mults jump).hi ∧
    (simulate_bar prevClose mults jump).op = prevClose := by
  simp only [simulate_bar]
  refine ⟨?_, ?_, ?_, ?_, trivial⟩
  · exact le_trans (min_le_left _ _) (foldl_min_le _ _)
  · exact le_trans (le_foldl_max _ _) (le_max_left _ _)
  · exact min_le_right _ _
  · exact le_max_right _ _

/-- C10 witness: a concrete bar with one micro-step and no jump. -/
theorem C10_witness :
    (simulate_bar 100 [2] none).lo ≤ (simulate_bar 100 [2] none).op ∧
    (simulate_bar 100 [2] none).op ≤ (simulate_bar 100 [2] none).hi ∧
    (simulate_bar 100 [2] none).lo ≤ (simulate_bar 100 [2] none).cl ∧
    (simulate_bar 100 [2] none).cl ≤ (simulate_bar 100 [2] none).hi ∧
    (simulate_bar 100 [2] none).op = 100 :=
  C10_bar 100 [2] none

/-! ## Summation helpers for the open-interest proofs -/

theorem oiSum_nonneg (l : List ORec) (h : ∀ r ∈ l, 0 ≤ r.oi) : 0 ≤ oiSum l := by
  unfold oiSum
  apply List.sum_nonneg
  intro x hx
  obtain ⟨r, hr, rfl⟩ := List.mem_map.mp hx
  exact h r hr

theorem castOiSum (l : List ORec) :
    ((oiSum l : ℤ) : ℚ) = (l.map fun r => (r.oi : ℚ)).sum := by
  unfold oiSum
  push_cast
  rw [List.map_map]
  rfl

/-- Truncating each summand of a nonnegative family to an integer loses at
most one unit per summand. -/
theorem pyInt_map_sum_bounds {α : Type} (q : α → ℚ) :
    ∀ l : List α, (∀ x ∈ l, 0 ≤ q x) →
      ((l.map fun x => pyInt (q x)).sum : ℚ) ≤ (l.map q).sum ∧
      (l.map q).sum - l.length ≤ ((l.map fun x => pyInt (q x)).sum : ℚ) := by
  intro l
  induction l with
  | nil => intro _; simp
  | cons x xs ih =>
    intro hq
    obtain ⟨ih1, ih2⟩ := ih (fun y hy => hq y (List.mem_cons_of_mem x hy))
    have hx := hq x (List.mem_cons_self x xs)
    have h1 := pyInt_cast_le hx
    have h2 := sub_one_le_pyInt hx
    simp only [List.map_cons, List.sum_cons, List.length_cons]
    constructor
    · push_cast
      push_cast at ih1
      linarith
    · push_cast
      push_cast at ih2
      linarith

/-- The ITM shrink of a Phase-3 event, when the 25-contract floor never
binds: the shrunk total is `f * total` up to one lost unit per ITM strike. -/
theorem shrink_sum_bounds (f : ℚ) (hf : 0 ≤ f) (itm : List ORec)
    (hoi : ∀ r ∈ itm, 0 ≤ r.oi)
    (hfloor : ∀ r ∈ itm, 25 ≤ pyInt ((r.oi : ℚ) * f)) :
    ((oiSum (itm.map fun r => { r with oi := max 25 (pyInt ((r.oi : ℚ) * f)) }) : ℤ) : ℚ)
      ≤ (oiSum itm : ℚ) * f ∧
    (oiSum itm : ℚ) * f - itm.length
      ≤ ((oiSum (itm.map fun r => { r with oi := max 25 (pyInt ((r.oi : ℚ) * f)) }) : ℤ) : ℚ) := by
  have hmax : (itm.map fun r => ({ r with oi := max 25 (pyInt ((r.oi : ℚ) * f)) } : ORec))
      = itm.map fun r => { r with oi := pyInt ((r.oi : ℚ) * f) } :=
    List.map_congr_left (fun r hr => by rw [max_eq_right (hfloor r hr)])
  rw [hmax]
  have hrw : oiSum (itm.map fun r => ({ r with oi := pyInt ((r.oi : ℚ) * f) } : ORec))
      = (itm.map fun r => pyInt ((r.oi : ℚ) * f)).sum := by
    unfold oiSum
    rw [List.map_map]
    rfl
  rw [hrw]
  obtain ⟨h1, h2⟩ := pyInt_map_sum_bounds (fun r : ORec => (r.oi : ℚ) * f) itm
    (fun r hr => mul_nonneg (by exact_mod_cast hoi r hr) hf)
  have hsum : (itm.map fun r : ORec => (r.oi : ℚ) * f).sum = (oiSum itm : ℚ) * f := by
    rw [List.sum_map_mul_right, ← castOiSum]
  rw [hsum] at h1 h2
  exact ⟨h1, h2⟩

/-- The OTM distribution of a Phase-3 event: the added total is the moved
amount `M` up to one lost unit per OTM strike. -/
theorem distribute_sum_bounds (M : ℤ) (hM : 0 ≤ M) (wfun : ORec → ℚ) (otm : List ORec)
    (hw : ∀ r ∈ otm, 0 < wfun r) (hne : otm ≠ []) :
    ((oiSum (otm.map fun r =>
        { r with oi := r.oi + pyInt ((M : ℚ) * (wfun r / (otm.map wfun).sum)) }) : ℤ) : ℚ)
      ≤ (oiSum otm : ℚ) + M ∧
    (oiSum otm : ℚ) + M - otm.length
      ≤ ((oiSum (otm.map fun r =>
        { r with oi := r.oi + pyInt ((M : ℚ) * (wfun r / (otm.map wfun).sum)) }) : ℤ) : ℚ) := by
  have hS : 0 < (otm.map wfun).sum := by
    apply List.sum_pos
    · intro x hx
      obtain ⟨r, hr, rfl⟩ := List.mem_map.mp hx
      exact hw r hr
    · intro hmapnil
      exact hne (List.map_eq_nil_iff.mp hmapnil)
  have hrw : oiSum (otm.map fun r =>
        ({ r with oi := r.oi + pyInt ((M : ℚ) * (wfun r / (otm.map wfun).sum)) } : ORec))
      = (otm.map fun r => r.oi + pyInt ((M : ℚ) * (wfun r / (otm.map wfun).sum))).sum := by
    unfold oiSum
    rw [List.map_map]
    rfl
  rw [hrw, List.sum_map_add]
  obtain ⟨h1, h2⟩ := pyInt_map_sum_bounds
    (fun r : ORec => (M : ℚ) * (wfun r / (otm.map wfun).sum)) otm
    (fun r hr => mul_nonneg (by exact_mod_cast hM)
      (div_nonneg (le_of_lt (hw r hr)) (le_of_lt hS)))
  have hqsum : (otm.map fun r : ORec => (M : ℚ) * (wfun r / (otm.map wfun).sum)).sum
      = (M : ℚ) := by
    have hfun : (fun r : ORec => (M : ℚ) * (wfun r / (otm.map wfun).sum))
        = fun r : ORec => ((M : ℚ) / (otm.map wfun).sum) * wfun r :=
      funext fun r => by ring
    rw [hfun, List.sum_map_mul_left, div_mul_cancel₀ _ (ne_of_gt hS)]
  rw [hqsum] at h1 h2
  have hfst : (otm.map fun r : ORec => r.oi).sum = oiSum otm := rfl
  rw [hfst]
  constructor
  · push_cast
    push_cast at h1
    linarith
  · push_cast
    push_cast at h2
    linarith

/-! ## C4: Phase-1 initialization total -/

/-- C4 counterexample: a single-expiry cohort with one call row (bump value 1)
and one put row (bump value 1/3) and target 1e6 ends Phase 1 with total
999999, not the target exactly: the per-strike `astype(int)` happens after
the global rescale, so truncation drift survives the rescale. -/
theorem C4_counterexample :
    (init_option_chain_oi 1000000 [1] [1/3]).sum ≠ 1000000 := by
  norm_num [init_option_chain_oi, rescale_oi, init_gauss_oi, pyInt]

/-- C4 (amended): after Phase 1 a cohort with non-empty call and put sets and
a positive pre-rescale total has total open interest within rounding of the
target: `target - (number of rows) ≤ total ≤ target`.  Exact equality fails
in general (see the counterexample) because each row is truncated to an
integer after the global rescale. -/
theorem C4_amended (target : ℚ) (ceG peG : List ℚ)
    (ht : 0 ≤ target) (hg : ∀ g ∈ ceG ++ peG, 0 ≤ g)
    (hne1 : ceG ≠ []) (hne2 : peG ≠ [])
    (hcur : 0 < (init_gauss_oi target ceG ++ init_gauss_oi target peG).sum) :
    target - (ceG.length + peG.length)
      ≤ ((init_option_chain_oi target ceG peG).sum : ℚ) ∧
    ((init_option_chain_oi target ceG peG).sum : ℚ) ≤ target := by
  have hguard : ¬(ceG = [] ∨ peG = []) := by
    push_neg
    exact ⟨hne1, hne2⟩
  unfold init_option_chain_oi rescale_oi
  rw [if_neg hguard, if_pos hcur]
  have helem : ∀ o ∈ init_gauss_oi target ceG ++ init_gauss_oi target peG, (0 : ℤ) ≤ o := by
    intro o ho
    rcases List.mem_append.mp ho with hh | hh <;>
    · unfold init_gauss_oi at hh
      obtain ⟨g, hgm, rfl⟩ := List.mem_map.mp hh
      refine pyInt_nonneg (mul_nonneg (mul_nonneg (hg g ?_) ht) (by norm_num))
      first
      | exact List.mem_append.mpr (Or.inl hgm)
      | exact List.mem_append.mpr (Or.inr hgm)
  set ois := init_gauss_oi target ceG ++ init_gauss_oi target peG with hois
  have hS0 : ((ois.sum : ℤ) : ℚ) ≠ 0 := by
    exact_mod_cast ne_of_gt hcur
  obtain ⟨h1, h2⟩ := pyInt_map_sum_bounds
    (fun o : ℤ => (o : ℚ) * (target / (ois.sum : ℚ))) ois
    (fun o ho => mul_nonneg (by exact_mod_cast helem o ho)
      (div_nonneg ht (by exact_mod_cast le_of_lt hcur)))
  have hsum : (ois.map fun o : ℤ => (o : ℚ) * (target / (ois.sum : ℚ))).sum = target := by
    rw [List.sum_map_mul_right]
    have hc : (ois.map fun o : ℤ => (o : ℚ)).sum = ((ois.sum : ℤ) : ℚ) := by
      push_cast
      rfl
    rw [hc, mul_comm, div_mul_cancel₀ target hS0]
  rw [hsum] at h1 h2
  have hlen : ois.length = ceG.length + peG.length := by
    simp [hois, init_gauss_oi]
  rw [hlen] at h2
  constructor
  · push_cast at h2 ⊢
    linarith
  · exact h1

/-- C4 witness: target 10 with bump values `[1]` and `[1/2]` gives pre-rescale
rows `[4, 2]` (sum 6 > 0) and a Phase-1 total between 8 and 10. -/
theorem C4_witness :
    (0 < (init_gauss_oi 10 [1] ++ init_gauss_oi 10 [(1 : ℚ)/2]).sum) ∧
    ((10 : ℚ) - (List.length [(1 : ℚ)] + List.length [(1 : ℚ)/2])
      ≤ ((init_option_chain_oi 10 [1] [1/2]).sum : ℚ) ∧
    ((init_option_chain_oi 10 [1] [1/2]).sum : ℚ) ≤ 10) :=
  have hcur : 0 < (init_gauss_oi 10 [1] ++ init_gauss_oi 10 [(1 : ℚ)/2]).sum := by
    norm_num [init_gauss_oi, pyInt]
  ⟨hcur, C4_amended 10 [1] [1/2] (by norm_num)
    (by intro g hgm; fin_cases hgm <;> norm_num)
    (by simp) (by simp) hcur⟩

/-! ## C7: Phase-2 injection monotonicity -/

theorem p2Weights_nonneg : ∀ w ∈ p2Weights, (0 : ℚ) ≤ w := by
  intro w hw
  fin_cases hw <;> norm_num

theorem p2Adds_nonneg (amt : ℤ) (hamt : 0 ≤ amt) (targets : List (ℕ × ORec)) :
    ∀ p ∈ p2Adds amt targets, 0 ≤ p.2 := by
  intro p hp
  unfold p2Adds at hp
  obtain ⟨q, hq, rfl⟩ := List.mem_map.mp hp
  exact pyInt_nonneg (mul_nonneg (by exact_mod_cast hamt)
    (p2Weights_nonneg q.2 (List.of_mem_zip hq).2))

theorem lookupAdd_nonneg (adds : List (ℕ × ℤ)) (h : ∀ p ∈ adds, 0 ≤ p.2) (i : ℕ) :
    0 ≤ lookupAdd adds i := by
  unfold lookupAdd
  apply List.sum_nonneg
  intro x hx
  obtain ⟨p, hp, rfl⟩ := List.mem_map.mp hx
  exact h p (List.mem_of_mem_filter hp)

theorem p2NewTotal_nonneg (recs : List ORec) (h : ∀ r ∈ recs, 0 ≤ r.oi) :
    0 ≤ p2NewTotal recs := by
  unfold p2NewTotal
  exact pyInt_nonneg (mul_nonneg (by exact_mod_cast oiSum_nonneg recs h) (by norm_num))

theorem p2CeAdd_nonneg (recs : List ORec) (h : ∀ r ∈ recs, 0 ≤ r.oi) :
    0 ≤ pyInt ((p2NewTotal recs : ℚ) / 2) :=
  pyInt_nonneg (div_nonneg (by exact_mod_cast p2NewTotal_nonneg recs h) (by norm_num))

theorem p2PeAdd_nonneg (recs : List ORec) (h : ∀ r ∈ recs, 0 ≤ r.oi) :
    0 ≤ p2NewTotal recs - pyInt ((p2NewTotal recs : ℚ) / 2) := by
  have hNT := p2NewTotal_nonneg recs h
  have hle : ((pyInt ((p2NewTotal recs : ℚ) / 2) : ℤ) : ℚ) ≤ (p2NewTotal recs : ℚ) := by
    have hd : (0 : ℚ) ≤ (p2NewTotal recs : ℚ) / 2 := by
      have : (0 : ℚ) ≤ (p2NewTotal recs : ℚ) := by exact_mod_cast hNT
      linarith
    have := pyInt_cast_le hd
    have hcast : (0 : ℚ) ≤ (p2NewTotal recs : ℚ) := by exact_mod_cast hNT
    linarith
  have : pyInt ((p2NewTotal recs : ℚ) / 2) ≤ p2NewTotal recs := by exact_mod_cast hle
  omega

/-- Each row of the cohort only ever gains open interest in Phase 2. -/
theorem add_new_daily_oi_pointwise (spot : ℚ) (days_to_expiry : ℤ)
    (recs : List ORec) (h : ∀ r ∈ recs, 0 ≤ r.oi) :
    ∀ p ∈ recs.enum,
      p.2.oi
        + lookupAdd (p2Adds (pyInt ((p2NewTotal recs : ℚ) / 2))
            (p2CeTargets spot days_to_expiry recs)) p.1
        + lookupAdd (p2Adds (p2NewTotal recs - pyInt ((p2NewTotal recs : ℚ) / 2))
            (p2PeTargets spot days_to_expiry recs)) p.1
      ≥ p.2.oi := by
  intro p _
  have hce := lookupAdd_nonneg _
    (p2Adds_nonneg _ (p2CeAdd_nonneg recs h) (p2CeTargets spot days_to_expiry recs)) p.1
  have hpe := lookupAdd_nonneg _
    (p2Adds_nonneg _ (p2PeAdd_nonneg recs h) (p2PeTargets spot days_to_expiry recs)) p.1
  omega

/-- C7: across one Phase-2 daily injection the cohort total never decreases
(every addition `int(side_total * weight)` is nonnegative; the injected mass
is 20% of the current total, split `int(new_total / 2)` to calls and the
remainder to puts, over at most five strikes per side). -/
theorem C7_injection (spot : ℚ) (days_to_expiry : ℤ) (recs : List ORec)
    (h : ∀ r ∈ recs, 0 ≤ r.oi) :
    oiSum recs ≤ oiSum (add_new_daily_oi spot days_to_expiry recs) := by
  unfold add_new_daily_oi
  split_ifs with hsplit
  · exact le_refl _
  · have hbase : oiSum recs = (recs.enum.map fun p : ℕ × ORec => p.2.oi).sum := by
      unfold oiSum
      conv_lhs => rw [← List.enum_map_snd recs]
      rw [List.map_map]
      rfl
    have hnew : oiSum (recs.enum.map fun p : ℕ × ORec =>
        { p.2 with oi := p.2.oi
            + lookupAdd (p2Adds (pyInt ((p2NewTotal recs : ℚ) / 2))
                (p2CeTargets spot days_to_expiry recs)) p.1
            + lookupAdd (p2Adds (p2NewTotal recs - pyInt ((p2NewTotal recs : ℚ) / 2))
                (p2PeTargets spot days_to_expiry recs)) p.1 })
        = (recs.enum.map fun p : ℕ × ORec => p.2.oi
            + lookupAdd (p2Adds (pyInt ((p2NewTotal recs : ℚ) / 2))
                (p2CeTargets spot days_to_expiry recs)) p.1
            + lookupAdd (p2Adds (p2NewTotal recs - pyInt ((p2NewTotal recs : ℚ) / 2))
                (p2PeTargets spot days_to_expiry recs)) p.1).sum := by
      unfold oiSum
      rw [List.map_map]
      rfl
    rw [hbase, hnew]
    exact List.sum_le_sum (add_new_daily_oi_pointwise spot days_to_expiry recs h)

/-- C7 witness: a two-row cohort (one eligible call at spot+200, one eligible
put at spot-200) with total 200 gains OI: the total rises from 200 to 220. -/
theorem C7_witness :
    (∀ r ∈ [(⟨300, Side.CE, 100⟩ : ORec), ⟨-100, Side.PE, 100⟩], 0 ≤ r.oi) ∧
    oiSum [(⟨300, Side.CE, 100⟩ : ORec), ⟨-100, Side.PE, 100⟩]
      ≤ oiSum (add_new_daily_oi 100 7 [⟨300, Side.CE, 100⟩, ⟨-100, Side.PE, 100⟩]) :=
  have hpos : ∀ r ∈ [(⟨300, Side.CE, 100⟩ : ORec), ⟨-100, Side.PE, 100⟩], 0 ≤ r.oi := by
    intro r hr
    fin_cases hr <;> norm_num
  ⟨hpos, C7_injection 100 7 _ hpos⟩

/-! ## C3: Phase-3 reallocation conservation -/

theorem reallocation_rate_pos (days_to_expiry : ℤ) :
    0 < reallocation_rate days_to_expiry := by
  unfold reallocation_rate
  split_ifs with h1 h2 h3
  · norm_num
  · norm_num
  · have hd6 : ((days_to_expiry : ℤ) : ℚ) ≤ 6 := by exact_mod_cast h3
    nlinarith
  · norm_num

theorem reallocation_rate_le_half (days_to_expiry : ℤ) :
    reallocation_rate days_to_expiry ≤ 1/2 := by
  unfold reallocation_rate
  split_ifs with h1 h2 h3
  · exact le_refl _
  · norm_num
  · have hd2 : (2 : ℚ) ≤ ((days_to_expiry : ℤ) : ℚ) := by
      exact_mod_cast (by omega : (2 : ℤ) ≤ days_to_expiry)
    nlinarith
  · norm_num

/-- The ITM/OTM call partition is exactly the cohort's call rows. -/
theorem ce_partition (spot : ℚ) (recs : List ORec) :
    oiSum (ceITM spot recs) + oiSum (ceOTM spot recs)
      = oiSum (recs.filter fun r => decide (r.side = Side.CE)) := by
  induction recs with
  | nil => rfl
  | cons r rs ih =>
    unfold ceITM ceOTM oiSum at *
    simp only [List.filter_cons]
    by_cases h1 : r.side = Side.CE
    · by_cases h2 : (r.strike : ℚ) ≤ spot
      · simp [h1, h2, not_lt.mpr h2]
        omega
      · simp [h1, h2, not_le.mp h2]
        omega
    · simp [h1]
      exact ih

/-- Total-OI bounds for the active body of one Phase-3 side event, under the
hypothesis that the 25-contract floor binds at no ITM strike: the total never
increases and decreases by at most one contract per strike involved. -/
theorem realloc_event_bounds (rate : ℚ) (hr0 : 0 < rate) (hr1 : rate ≤ 1)
    (wfun : ORec → ℚ) (itm otm : List ORec)
    (hw : ∀ r ∈ otm, 0 < wfun r) (hotm : otm ≠ [])
    (hoi : ∀ r ∈ itm, 0 ≤ r.oi)
    (hM : 0 < pyInt ((oiSum itm : ℚ) * rate))
    (hfloor : ∀ r ∈ itm, 25 ≤ pyInt ((r.oi : ℚ) *
      (1 - (pyInt ((oiSum itm : ℚ) * rate) : ℚ) / (oiSum itm : ℚ)))) :
    oiSum (reallocActive rate wfun itm otm).1 + oiSum (reallocActive rate wfun itm otm).2
      ≤ oiSum itm + oiSum otm ∧
    oiSum itm + oiSum otm
      ≤ oiSum (reallocActive rate wfun itm otm).1 + oiSum (reallocActive rate wfun itm otm).2
        + (((itm.length : ℤ)) + ((otm.length : ℤ))) := by
  have hprod : 0 < (oiSum itm : ℚ) * rate := pos_of_pyInt_pos hM
  have htotpos : 0 < oiSum itm := by
    by_contra hc
    push_neg at hc
    have hcq : ((oiSum itm : ℤ) : ℚ) ≤ 0 := by exact_mod_cast hc
    nlinarith
  have htq : (0 : ℚ) < ((oiSum itm : ℤ) : ℚ) := by exact_mod_cast htotpos
  have hMle : ((pyInt ((oiSum itm : ℚ) * rate) : ℤ) : ℚ) ≤ (oiSum itm : ℚ) * rate :=
    pyInt_cast_le (le_of_lt hprod)
  have hf0 : 0 ≤ 1 - (pyInt ((oiSum itm : ℚ) * rate) : ℚ) / (oiSum itm : ℚ) := by
    rw [sub_nonneg, div_le_one htq]
    nlinarith
  obtain ⟨hs1, hs2⟩ := shrink_sum_bounds _ hf0 itm hoi hfloor
  obtain ⟨hd1, hd2⟩ := distribute_sum_bounds _ (le_of_lt hM) wfun otm hw hotm
  have hftot : (oiSum itm : ℚ) * (1 - (pyInt ((oiSum itm : ℚ) * rate) : ℚ) / (oiSum itm : ℚ))
      = (oiSum itm : ℚ) - (pyInt ((oiSum itm : ℚ) * rate) : ℚ) := by
    field_simp
  rw [hftot] at hs1 hs2
  simp only [reallocActive]
  constructor
  · qify
    linarith
  · qify
    linarith

/-- C3 counterexample: call side, expiry day (rate 0.5), ITM row (strike 50,
OI 30), OTM row (strike 150, OI 100) at spot 100.  The ITM row shrinks to the
floor `max(25, int(30 * 0.5)) = 25` (releasing only 5 contracts) while the
OTM row still gains the full `int(15 * 1) = 15`, so the cohort total jumps
from 130 to 140 — a creation of 10 contracts, larger than the 2 strikes
involved, contradicting the claimed truncation-error bound. -/
theorem C3_counterexample :
    ¬(|oiSum (reallocCE (reallocation_rate 0) 100
          [(⟨50, Side.CE, 30⟩ : ORec), ⟨150, Side.CE, 100⟩]).1
        + oiSum (reallocCE (reallocation_rate 0) 100
          [(⟨50, Side.CE, 30⟩ : ORec), ⟨150, Side.CE, 100⟩]).2
        - (oiSum (ceITM 100 [(⟨50, Side.CE, 30⟩ : ORec), ⟨150, Side.CE, 100⟩])
          + oiSum (ceOTM 100 [(⟨50, Side.CE, 30⟩ : ORec), ⟨150, Side.CE, 100⟩]))|
      ≤ (((ceITM 100 [(⟨50, Side.CE, 30⟩ : ORec), ⟨150, Side.CE, 100⟩]).length : ℤ)
        + ((ceOTM 100 [(⟨50, Side.CE, 30⟩ : ORec), ⟨150, Side.CE, 100⟩]).length : ℤ))) := by
  norm_num [reallocCE, reallocActive, ceITM, ceOTM, ceWeight, oiSum,
    reallocation_rate, pyInt]

/-- The ITM/OTM put partition is exactly the cohort's put rows. -/
theorem pe_partition (spot : ℚ) (recs : List ORec) :
    oiSum (peITM spot recs) + oiSum (peOTM spot recs)
      = oiSum (recs.filter fun r => decide (r.side = Side.PE)) := by
  induction recs with
  | nil => rfl
  | cons r rs ih =>
    unfold peITM peOTM oiSum at *
    simp only [List.filter_cons]
    by_cases h1 : r.side = Side.PE
    · by_cases h2 : spot ≤ (r.strike : ℚ)
      · simp [h1, h2, not_lt.mpr h2]
        omega
      · simp [h1, h2, not_le.mp h2]
        omega
    · simp [h1]
      exact ih

/-- C3 (amended): across one Phase-3 reallocation event on either side of a
single expiry cohort — that side having non-empty ITM and OTM sets, a
positive moved amount, and the 25-contract floor binding at no ITM strike —
that side's total open interest (which is its ITM total plus its OTM total)
is conserved up to integer truncation: it never increases, and it decreases
by at most one contract per strike involved.  (When the floor does bind, the
total can grow by up to the moved amount — see the counterexample.)  The
event touches no other expiry's rows. -/
theorem C3_amended (days_to_expiry : ℤ) (spot : ℚ) (recs : List ORec) :
    ((∀ r ∈ ceITM spot recs, 0 ≤ r.oi) →
     ceOTM spot recs ≠ [] →
     0 < pyInt ((oiSum (ceITM spot recs) : ℚ) * reallocation_rate days_to_expiry) →
     (∀ r ∈ ceITM spot recs,
       25 ≤ pyInt ((r.oi : ℚ) *
         (1 - (pyInt ((oiSum (ceITM spot recs) : ℚ) * reallocation_rate days_to_expiry) : ℚ)
           / (oiSum (ceITM spot recs) : ℚ)))) →
     (oiSum (ceITM spot recs) + oiSum (ceOTM spot recs)
        = oiSum (recs.filter fun r => decide (r.side = Side.CE))) ∧
     oiSum (reallocCE (reallocation_rate days_to_expiry) spot recs).1
        + oiSum (reallocCE (reallocation_rate days_to_expiry) spot recs).2
      ≤ oiSum (ceITM spot recs) + oiSum (ceOTM spot recs) ∧
     oiSum (ceITM spot recs) + oiSum (ceOTM spot recs)
      ≤ oiSum (reallocCE (reallocation_rate days_to_expiry) spot recs).1
        + oiSum (reallocCE (reallocation_rate days_to_expiry) spot recs).2
        + (((ceITM spot recs).length : ℤ) + ((ceOTM spot recs).length : ℤ))) ∧
    ((∀ r ∈ peITM spot recs, 0 ≤ r.oi) →
     peOTM spot recs ≠ [] →
     0 < pyInt ((oiSum (peITM spot recs) : ℚ) * reallocation_rate days_to_expiry) →
     (∀ r ∈ peITM spot recs,
       25 ≤ pyInt ((r.oi : ℚ) *
         (1 - (pyInt ((oiSum (peITM spot recs) : ℚ) * reallocation_rate days_to_expiry) : ℚ)
           / (oiSum (peITM spot recs) : ℚ)))) →
     (oiSum (peITM spot recs) + oiSum (peOTM spot recs)
        = oiSum (recs.filter fun r => decide (r.side = Side.PE))) ∧
     oiSum (reallocPE (reallocation_rate days_to_expiry) spot recs).1
        + oiSum (reallocPE (reallocation_rate days_to_expiry) spot recs).2
      ≤ oiSum (peITM spot recs) + oiSum (peOTM spot recs) ∧
     oiSum (peITM spot recs) + oiSum (peOTM spot recs)
      ≤ oiSum (reallocPE (reallocation_rate days_to_expiry) spot recs).1
        + oiSum (reallocPE (reallocation_rate days_to_expiry) spot recs).2
        + (((peITM spot recs).length : ℤ) + ((peOTM spot recs).length : ℤ))) := by
  constructor
  · intro hoi hne2 hM hfloor
    have hw : ∀ r ∈ ceOTM spot recs, 0 < ceWeight spot r := by
      intro r hr
      have hst : spot < (r.strike : ℚ) := by
        unfold ceOTM at hr
        have hmem := (List.mem_filter.mp hr).2
        simp only [Bool.and_eq_true, decide_eq_true_eq] at hmem
        exact hmem.2
      unfold ceWeight
      apply div_pos one_pos
      linarith
    have hitm_ne : ceITM spot recs ≠ [] := by
      intro hnil
      rw [hnil] at hM
      simp [oiSum, pyInt] at hM
    have hguard : ¬(ceITM spot recs = [] ∨ ceOTM spot recs = [] ∨
        pyInt ((oiSum (ceITM spot recs) : ℚ) * reallocation_rate days_to_expiry) ≤ 0) := by
      push_neg
      exact ⟨hitm_ne, hne2, hM⟩
    have hre : reallocCE (reallocation_rate days_to_expiry) spot recs
        = reallocActive (reallocation_rate days_to_expiry) (ceWeight spot)
            (ceITM spot recs) (ceOTM spot recs) := by
      unfold reallocCE
      rw [if_neg hguard]
    rw [hre]
    obtain ⟨hb1, hb2⟩ := realloc_event_bounds (reallocation_rate days_to_expiry)
      (reallocation_rate_pos days_to_expiry)
      (le_trans (reallocation_rate_le_half days_to_expiry) (by norm_num))
      (ceWeight spot) (ceITM spot recs) (ceOTM spot recs) hw hne2 hoi hM hfloor
    exact ⟨ce_partition spot recs, hb1, hb2⟩
  · intro hoi hne2 hM hfloor
    have hw : ∀ r ∈ peOTM spot recs, 0 < peWeight spot r := by
      intro r hr
      have hst : (r.strike : ℚ) < spot := by
        unfold peOTM at hr
        have hmem := (List.mem_filter.mp hr).2
        simp only [Bool.and_eq_true, decide_eq_true_eq] at hmem
        exact hmem.2
      unfold peWeight
      apply div_pos one_pos
      linarith
    have hitm_ne : peITM spot recs ≠ [] := by
      intro hnil
      rw [hnil] at hM
      simp [oiSum, pyInt] at hM
    have hguard : ¬(peITM spot recs = [] ∨ peOTM spot recs = [] ∨
        pyInt ((oiSum (peITM spot recs) : ℚ) * reallocation_rate days_to_expiry) ≤ 0) := by
      push_neg
      exact ⟨hitm_ne, hne2, hM⟩
    have hre : reallocPE (reallocation_rate days_to_expiry) spot recs
        = reallocActive (reallocation_rate days_to_expiry) (peWeight spot)
            (peITM spot recs) (peOTM spot recs) := by
      unfold reallocPE
      rw [if_neg hguard]
    rw [hre]
    obtain ⟨hb1, hb2⟩ := realloc_event_bounds (reallocation_rate days_to_expiry)
      (reallocation_rate_pos days_to_expiry)
      (le_trans (reallocation_rate_le_half days_to_expiry) (by norm_num))
      (peWeight spot) (peITM spot recs) (peOTM spot recs) hw hne2 hoi hM hfloor
    exact ⟨pe_partition spot recs, hb1, hb2⟩

/-- C3 witness: spot 100, seven days to expiry (rate 0.1), a cohort with one
ITM and one OTM strike on each side, each ITM row holding 1000 contracts: on
both sides the moved amount is 100, the shrunk ITM value 900 stays above the
floor, and each side's total of 1500 is exactly conserved. -/
theorem C3_witness :
    (0 < pyInt ((oiSum (ceITM 100 [(⟨50, Side.CE, 1000⟩ : ORec), ⟨150, Side.CE, 500⟩, ⟨150, Side.PE, 1000⟩, ⟨50, Side.PE, 500⟩]) : ℚ)
      * reallocation_rate 7)) ∧
    (0 < pyInt ((oiSum (peITM 100 [(⟨50, Side.CE, 1000⟩ : ORec), ⟨150, Side.CE, 500⟩, ⟨150, Side.PE, 1000⟩, ⟨50, Side.PE, 500⟩]) : ℚ)
      * reallocation_rate 7)) ∧
    ((oiSum (ceITM 100 [(⟨50, Side.CE, 1000⟩ : ORec), ⟨150, Side.CE, 500⟩, ⟨150, Side.PE, 1000⟩, ⟨50, Side.PE, 500⟩]) + oiSum (ceOTM 100 [(⟨50, Side.CE, 1000⟩ : ORec), ⟨150, Side.CE, 500⟩, ⟨150, Side.PE, 1000⟩, ⟨50, Side.PE, 500⟩])
        = oiSum (([(⟨50, Side.CE, 1000⟩ : ORec), ⟨150, Side.CE, 500⟩, ⟨150, Side.PE, 1000⟩, ⟨50, Side.PE, 500⟩]).filter
            fun r => decide (r.side = Side.CE))) ∧
    oiSum (reallocCE (reallocation_rate 7) 100 [(⟨50, Side.CE, 1000⟩ : ORec), ⟨150, Side.CE, 500⟩, ⟨150, Side.PE, 1000⟩, ⟨50, Side.PE, 500⟩]).1
        + oiSum (reallocCE (reallocation_rate 7) 100 [(⟨50, Side.CE, 1000⟩ : ORec), ⟨150, Side.CE, 500⟩, ⟨150, Side.PE, 1000⟩, ⟨50, Side.PE, 500⟩]).2
      ≤ oiSum (ceITM 100 [(⟨50, Side.CE, 1000⟩ : ORec), ⟨150, Side.CE, 500⟩, ⟨150, Side.PE, 1000⟩, ⟨50, Side.PE, 500⟩]) + oiSum (ceOTM 100 [(⟨50, Side.CE, 1000⟩ : ORec), ⟨150, Side.CE, 500⟩, ⟨150, Side.PE, 1000⟩, ⟨50, Side.PE, 500⟩]) ∧
    oiSum (ceITM 100 [(⟨50, Side.CE, 1000⟩ : ORec), ⟨150, Side.CE, 500⟩, ⟨150, Side.PE, 1000⟩, ⟨50, Side.PE, 500⟩]) + oiSum (ceOTM 100 [(⟨50, Side.CE, 1000⟩ : ORec), ⟨150, Side.CE, 500⟩, ⟨150, Side.PE, 1000⟩, ⟨50, Side.PE, 500⟩])
      ≤ oiSum (reallocCE (reallocation_rate 7) 100 [(⟨50, Side.CE, 1000⟩ : ORec), ⟨150, Side.CE, 500⟩, ⟨150, Side.PE, 1000⟩, ⟨50, Side.PE, 500⟩]).1
        + oiSum (reallocCE (reallocation_rate 7) 100 [(⟨50, Side.CE, 1000⟩ : ORec), ⟨150, Side.CE, 500⟩, ⟨150, Side.PE, 1000⟩, ⟨50, Side.PE, 500⟩]).2
        + (((ceITM 100 [(⟨50, Side.CE, 1000⟩ : ORec), ⟨150, Side.CE, 500⟩, ⟨150, Side.PE, 1000⟩, ⟨50, Side.PE, 500⟩]).length : ℤ) + ((ceOTM 100 [(⟨50, Side.CE, 1000⟩ : ORec), ⟨150, Side.CE, 500⟩, ⟨150, Side.PE, 1000⟩, ⟨50, Side.PE, 500⟩]).length : ℤ))) ∧
    ((oiSum (peITM 100 [(⟨50, Side.CE, 1000⟩ : ORec), ⟨150, Side.CE, 500⟩, ⟨150, Side.PE, 1000⟩, ⟨50, Side.PE, 500⟩]) + oiSum (peOTM 100 [(⟨50, Side.CE, 1000⟩ : ORec), ⟨150, Side.CE, 500⟩, ⟨150, Side.PE, 1000⟩, ⟨50, Side.PE, 500⟩])
        = oiSum (([(⟨50, Side.CE, 1000⟩ : ORec), ⟨150, Side.CE, 500⟩, ⟨150, Side.PE, 1000⟩, ⟨50, Side.PE, 500⟩]).filter
            fun r => decide (r.side = Side.PE))) ∧
    oiSum (reallocPE (reallocation_rate 7) 100 [(⟨50, Side.CE, 1000⟩ : ORec), ⟨150, Side.CE, 500⟩, ⟨150, Side.PE, 1000⟩, ⟨50, Side.PE, 500⟩]).1
        + oiSum (reallocPE (reallocation_rate 7) 100 [(⟨50, Side.CE, 1000⟩ : ORec), ⟨150, Side.CE, 500⟩, ⟨150, Side.PE, 1000⟩, ⟨50, Side.PE, 500⟩]).2
      ≤ oiSum (peITM 100 [(⟨50, Side.CE, 1000⟩ : ORec), ⟨150, Side.CE, 500⟩, ⟨150, Side.PE, 1000⟩, ⟨50, Side.PE, 500⟩]) + oiSum (peOTM 100 [(⟨50, Side.CE, 1000⟩ : ORec), ⟨150, Side.CE, 500⟩, ⟨150, Side.PE, 1000⟩, ⟨50, Side.PE, 500⟩]) ∧
    oiSum (peITM 100 [(⟨50, Side.CE, 1000⟩ : ORec), ⟨150, Side.CE, 500⟩, ⟨150, Side.PE, 1000⟩, ⟨50, Side.PE, 500⟩]) + oiSum (peOTM 100 [(⟨50, Side.CE, 1000⟩ : ORec), ⟨150, Side.CE, 500⟩, ⟨150, Side.PE, 1000⟩, ⟨50, Side.PE, 500⟩])
      ≤ oiSum (reallocPE (reallocation_rate 7) 100 [(⟨50, Side.CE, 1000⟩ : ORec), ⟨150, Side.CE, 500⟩, ⟨150, Side.PE, 1000⟩, ⟨50, Side.PE, 500⟩]).1
        + oiSum (reallocPE (reallocation_rate 7) 100 [(⟨50, Side.CE, 1000⟩ : ORec), ⟨150, Side.CE, 500⟩, ⟨150, Side.PE, 1000⟩, ⟨50, Side.PE, 500⟩]).2
        + (((peITM 100 [(⟨50, Side.CE, 1000⟩ : ORec), ⟨150, Side.CE, 500⟩, ⟨150, Side.PE, 1000⟩, ⟨50, Side.PE, 500⟩]).length : ℤ) + ((peOTM 100 [(⟨50, Side.CE, 1000⟩ : ORec), ⟨150, Side.CE, 500⟩, ⟨150, Side.PE, 1000⟩, ⟨50, Side.PE, 500⟩]).length : ℤ))) :=
  ⟨by norm_num [ceITM, oiSum, reallocation_rate, pyInt, (by decide : Side.PE ≠ Side.CE)],
   by norm_num [peITM, oiSum, reallocation_rate, pyInt, (by decide : Side.CE ≠ Side.PE)],
   (C3_amended 7 100 [(⟨50, Side.CE, 1000⟩ : ORec), ⟨150, Side.CE, 500⟩, ⟨150, Side.PE, 1000⟩, ⟨50, Side.PE, 500⟩]).1
    (by intro r hr; norm_num [ceITM, (by decide : Side.PE ≠ Side.CE)] at hr; subst hr; norm_num)
    (by norm_num [ceOTM, (by decide : Side.PE ≠ Side.CE)])
    (by norm_num [ceITM, oiSum, reallocation_rate, pyInt, (by decide : Side.PE ≠ Side.CE)])
    (by intro r hr; norm_num [ceITM, (by decide : Side.PE ≠ Side.CE)] at hr
        subst hr
        norm_num [ceITM, oiSum, reallocation_rate, pyInt, (by decide : Side.PE ≠ Side.CE)]),
   (C3_amended 7 100 [(⟨50, Side.CE, 1000⟩ : ORec), ⟨150, Side.CE, 500⟩, ⟨150, Side.PE, 1000⟩, ⟨50, Side.PE, 500⟩]).2
    (by intro r hr; norm_num [peITM, (by decide : Side.CE ≠ Side.PE)] at hr; subst hr; norm_num)
    (by norm_num [peOTM, (by decide : Side.CE ≠ Side.PE)])
    (by norm_num [peITM, oiSum, reallocation_rate, pyInt, (by decide : Side.CE ≠ Side.PE)])
    (by intro r hr; norm_num [peITM, (by decide : Side.CE ≠ Side.PE)] at hr
        subst hr
        norm_num [peITM, oiSum, reallocation_rate, pyInt, (by decide : Side.CE ≠ Side.PE)])⟩

/-! ## C6: open-interest non-negativity and the 25-contract floor -/

theorem init_gauss_append_nonneg (target : ℚ) (ceG peG : List ℚ) (ht : 0 ≤ target)
    (hg : ∀ g ∈ ceG ++ peG, 0 ≤ g) :
    ∀ o ∈ init_gauss_oi target ceG ++ init_gauss_oi target peG, (0 : ℤ) ≤ o := by
  intro o ho
  rcases List.mem_append.mp ho with hh | hh <;>
  · unfold init_gauss_oi at hh
    obtain ⟨g, hgm, rfl⟩ := List.mem_map.mp hh
    refine pyInt_nonneg (mul_nonneg (mul_nonneg (hg g ?_) ht) (by norm_num))
    first
    | exact List.mem_append.mpr (Or.inl hgm)
    | exact List.mem_append.mpr (Or.inr hgm)

theorem init_oi_nonneg (target : ℚ) (ceG peG : List ℚ) (ht : 0 ≤ target)
    (hg : ∀ g ∈ ceG ++ peG, 0 ≤ g) :
    ∀ o ∈ init_option_chain_oi target ceG peG, 0 ≤ o := by
  intro o ho
  unfold init_option_chain_oi at ho
  split_ifs at ho with hsplit
  · obtain ⟨g, hgm, rfl⟩ := List.mem_map.mp ho
    exact le_refl 0
  · unfold rescale_oi at ho
    split_ifs at ho with hpos
    · obtain ⟨o', ho', rfl⟩ := List.mem_map.mp ho
      have h1 : (0 : ℤ) ≤ o' := init_gauss_append_nonneg target ceG peG ht hg o' ho'
      refine pyInt_nonneg (mul_nonneg (by exact_mod_cast h1)
        (div_nonneg ht ?_))
      exact_mod_cast le_of_lt hpos
    · exact init_gauss_append_nonneg target ceG peG ht hg o ho

theorem add_daily_nonneg (spot : ℚ) (days_to_expiry : ℤ) (recs : List ORec)
    (h : ∀ r ∈ recs, 0 ≤ r.oi) :
    ∀ r ∈ add_new_daily_oi spot days_to_expiry recs, 0 ≤ r.oi := by
  intro r hr
  unfold add_new_daily_oi at hr
  split_ifs at hr with hsplit
  · exact h r hr
  · obtain ⟨p, hp, rfl⟩ := List.mem_map.mp hr
    have hbase : 0 ≤ p.2.oi := h p.2 (List.snd_mem_of_mem_enum hp)
    have hce := lookupAdd_nonneg _
      (p2Adds_nonneg _ (p2CeAdd_nonneg recs h) (p2CeTargets spot days_to_expiry recs)) p.1
    have hpe := lookupAdd_nonneg _
      (p2Adds_nonneg _ (p2PeAdd_nonneg recs h) (p2PeTargets spot days_to_expiry recs)) p.1
    show 0 ≤ p.2.oi + _ + _
    omega

theorem reallocActive_itm_ge25 (rate : ℚ) (wfun : ORec → ℚ) (itm otm : List ORec) :
    ∀ r ∈ (reallocActive rate wfun itm otm).1, 25 ≤ r.oi := by
  intro r hr
  simp only [reallocActive] at hr
  obtain ⟨s, hs, rfl⟩ := List.mem_map.mp hr
  exact le_max_left _ _

theorem reallocActive_otm_nonneg (rate : ℚ) (wfun : ORec → ℚ) (itm otm : List ORec)
    (hoi : ∀ r ∈ otm, 0 ≤ r.oi) (hM : 0 ≤ pyInt ((oiSum itm : ℚ) * rate))
    (hw : ∀ r ∈ otm, 0 ≤ wfun r) :
    ∀ r ∈ (reallocActive rate wfun itm otm).2, 0 ≤ r.oi := by
  have hS : 0 ≤ (otm.map wfun).sum := by
    apply List.sum_nonneg
    intro x hx
    obtain ⟨s, hs, rfl⟩ := List.mem_map.mp hx
    exact hw s hs
  intro r hr
  simp only [reallocActive] at hr
  obtain ⟨s, hs, rfl⟩ := List.mem_map.mp hr
  have hadd := pyInt_nonneg (mul_nonneg
    (show (0 : ℚ) ≤ ((pyInt ((oiSum itm : ℚ) * rate) : ℤ) : ℚ) by exact_mod_cast hM)
    (div_nonneg (hw s hs) hS))
  have hb := hoi s hs
  dsimp only
  omega

theorem ceOTM_weight_nonneg (spot : ℚ) (recs : List ORec) :
    ∀ r ∈ ceOTM spot recs, 0 ≤ ceWeight spot r := by
  intro r hr
  have hst : spot < (r.strike : ℚ) := by
    unfold ceOTM at hr
    have hmem := (List.mem_filter.mp hr).2
    simp only [Bool.and_eq_true, decide_eq_true_eq] at hmem
    exact hmem.2
  unfold ceWeight
  apply le_of_lt (div_pos one_pos (by linarith))

theorem peOTM_weight_nonneg (spot : ℚ) (recs : List ORec) :
    ∀ r ∈ peOTM spot recs, 0 ≤ peWeight spot r := by
  intro r hr
  have hst : (r.strike : ℚ) < spot := by
    unfold peOTM at hr
    have hmem := (List.mem_filter.mp hr).2
    simp only [Bool.and_eq_true, decide_eq_true_eq] at hmem
    exact hmem.2
  unfold peWeight
  apply le_of_lt (div_pos one_pos (by linarith))

theorem reallocCE_nonneg (rate spot : ℚ) (recs : List ORec)
    (h : ∀ r ∈ recs, 0 ≤ r.oi) :
    (∀ r ∈ (reallocCE rate spot recs).1, 0 ≤ r.oi) ∧
    (∀ r ∈ (reallocCE rate spot recs).2, 0 ≤ r.oi) := by
  unfold reallocCE
  split_ifs with hguard
  · constructor <;> intro r hr <;> exact h r (List.mem_of_mem_filter hr)
  · push_neg at hguard
    constructor
    · intro r hr
      exact le_trans (by norm_num)
        (reallocActive_itm_ge25 rate (ceWeight spot) _ _ r hr)
    · exact reallocActive_otm_nonneg rate (ceWeight spot) _ _
        (fun r hr => h r (List.mem_of_mem_filter hr))
        (le_of_lt hguard.2.2) (ceOTM_weight_nonneg spot recs)

theorem reallocPE_nonneg (rate spot : ℚ) (recs : List ORec)
    (h : ∀ r ∈ recs, 0 ≤ r.oi) :
    (∀ r ∈ (reallocPE rate spot recs).1, 0 ≤ r.oi) ∧
    (∀ r ∈ (reallocPE rate spot recs).2, 0 ≤ r.oi) := by
  unfold reallocPE
  split_ifs with hguard
  · constructor <;> intro r hr <;> exact h r (List.mem_of_mem_filter hr)
  · push_neg at hguard
    constructor
    · intro r hr
      exact le_trans (by norm_num)
        (reallocActive_itm_ge25 rate (peWeight spot) _ _ r hr)
    · exact reallocActive_otm_nonneg rate (peWeight spot) _ _
        (fun r hr => h r (List.mem_of_mem_filter hr))
        (le_of_lt hguard.2.2) (peOTM_weight_nonneg spot recs)

theorem reallocCE_floor (rate spot : ℚ) (recs : List ORec)
    (hguard : ¬(ceITM spot recs = [] ∨ ceOTM spot recs = [] ∨
      pyInt ((oiSum (ceITM spot recs) : ℚ) * rate) ≤ 0)) :
    ∀ r ∈ (reallocCE rate spot recs).1, 25 ≤ r.oi := by
  unfold reallocCE
  rw [if_neg hguard]
  exact reallocActive_itm_ge25 rate (ceWeight spot) _ _

theorem reallocPE_floor (rate spot : ℚ) (recs : List ORec)
    (hguard : ¬(peITM spot recs = [] ∨ peOTM spot recs = [] ∨
      pyInt ((oiSum (peITM spot recs) : ℚ) * rate) ≤ 0)) :
    ∀ r ∈ (reallocPE rate spot recs).1, 25 ≤ r.oi := by
  unfold reallocPE
  rw [if_neg hguard]
  exact reallocActive_itm_ge25 rate (peWeight spot) _ _

/-- C6: through every phase of the open-interest lifecycle, starting from
nonnegative state, every record's open interest stays a nonnegative integer
(Phase 1 initialization, Phase 2 daily injection, and both sides of a Phase-3
reallocation event), and immediately after a Phase-3 ITM proportional shrink
(whenever the shrink branch executes, on either side) every shrunk strike's
open interest is at least the 25-contract floor. -/
theorem C6_lifecycle (target : ℚ) (ceG peG : List ℚ)
    (ht : 0 ≤ target) (hg : ∀ g ∈ ceG ++ peG, 0 ≤ g)
    (spot2 : ℚ) (d2 : ℤ) (recs2 : List ORec) (h2 : ∀ r ∈ recs2, 0 ≤ r.oi)
    (d3 : ℤ) (spot3 : ℚ) (recs3 : List ORec) (h3 : ∀ r ∈ recs3, 0 ≤ r.oi) :
    (∀ o ∈ init_option_chain_oi target ceG peG, 0 ≤ o) ∧
    (∀ r ∈ add_new_daily_oi spot2 d2 recs2, 0 ≤ r.oi) ∧
    (∀ r ∈ (reallocCE (reallocation_rate d3) spot3 recs3).1, 0 ≤ r.oi) ∧
    (∀ r ∈ (reallocCE (reallocation_rate d3) spot3 recs3).2, 0 ≤ r.oi) ∧
    (∀ r ∈ (reallocPE (reallocation_rate d3) spot3 recs3).1, 0 ≤ r.oi) ∧
    (∀ r ∈ (reallocPE (reallocation_rate d3) spot3 recs3).2, 0 ≤ r.oi) ∧
    (¬(ceITM spot3 recs3 = [] ∨ ceOTM spot3 recs3 = [] ∨
        pyInt ((oiSum (ceITM spot3 recs3) : ℚ) * reallocation_rate d3) ≤ 0) →
      ∀ r ∈ (reallocCE (reallocation_rate d3) spot3 recs3).1, 25 ≤ r.oi) ∧
    (¬(peITM spot3 recs3 = [] ∨ peOTM spot3 recs3 = [] ∨
        pyInt ((oiSum (peITM spot3 recs3) : ℚ) * reallocation_rate d3) ≤ 0) →
      ∀ r ∈ (reallocPE (reallocation_rate d3) spot3 recs3).1, 25 ≤ r.oi) :=
  ⟨init_oi_nonneg target ceG peG ht hg,
   add_daily_nonneg spot2 d2 recs2 h2,
   (reallocCE_nonneg (reallocation_rate d3) spot3 recs3 h3).1,
   (reallocCE_nonneg (reallocation_rate d3) spot3 recs3 h3).2,
   (reallocPE_nonneg (reallocation_rate d3) spot3 recs3 h3).1,
   (reallocPE_nonneg (reallocation_rate d3) spot3 recs3 h3).2,
   fun hguard => reallocCE_floor (reallocation_rate d3) spot3 recs3 hguard,
   fun hguard => reallocPE_floor (reallocation_rate d3) spot3 recs3 hguard⟩

/-- C6 witness: a concrete lifecycle — Phase-1 bumps `[1]`/`[1]` with target
10, a Phase-2 cohort with one eligible strike per side, and a Phase-3 cohort
on expiry day whose call side executes the shrink branch, after which the
shrunk ITM call sits at the 25-contract floor. -/
theorem C6_witness :
    ((0 : ℚ) ≤ 10) ∧
    (∀ r ∈ (reallocCE (reallocation_rate 0) 100
        [(⟨50, Side.CE, 30⟩ : ORec), ⟨150, Side.CE, 100⟩]).1,
      25 ≤ r.oi) :=
  ⟨by norm_num,
   (C6_lifecycle 10 [1] [1] (by norm_num)
      (by intro g hgm; fin_cases hgm <;> norm_num)
      100 7 [⟨300, Side.CE, 100⟩, ⟨-100, Side.PE, 100⟩]
      (by intro r hr; fin_cases hr <;> norm_num)
      0 100 [⟨50, Side.CE, 30⟩, ⟨150, Side.CE, 100⟩]
      (by intro r hr; fin_cases hr <;> norm_num)).2.2.2.2.2.2.1
    (by norm_num [ceITM, ceOTM, oiSum, reallocation_rate, pyInt])⟩
